import Mathlib

/-!
# Teacher Training API — formal model

Shallow embedding of the backend service in `src/main.py` and `src/schemas.py`:
a FastAPI app over a MongoDB document store, with endpoints for course modules,
per-user progress and per-user notes.

Documents are modelled as association lists of string keys and `Value`s
(mirroring Python dicts / BSON documents, insertion-ordered, keys unique).
The external store is a list of documents per collection, threaded explicitly
through the handler functions together with a counter supplying fresh
ObjectIds.  HTTP error responses (`HTTPException(status_code, detail)`) are
modelled as `Except (Nat × String)`.
-/

/-- A BSON/JSON-style value as stored in a document or sent on the wire.
`vOid` models a `bson.ObjectId` (the store-internal identifier), keyed by the
natural number the model's id generator produced it from. -/
inductive Value where
  | vStr (s : String)
  | vInt (n : Int)
  | vBool (b : Bool)
  | vNull
  | vOid (n : Nat)
  | vArr (elems : List Value)
  | vDoc (fields : List (String × Value))

/-- A document: an insertion-ordered dictionary from string keys to values,
modelling a Python `dict` / BSON document. -/
abbrev Doc := List (String × Value)

/-- `d.get(k)` on a Python dict: the value at the first occurrence of key `k`,
if any. -/
def getField : Doc → String → Option Value
  | [], _ => none
  | (k', v) :: tl, k => if k' = k then some v else getField tl k

/-- `d[k] = v` on a Python dict: overwrite the value in place if the key is
present (keeping its position), otherwise append the new key at the end. -/
def setField : Doc → String → Value → Doc
  | [], k, v => [(k, v)]
  | (k', v') :: tl, k, v =>
    if k' = k then (k, v) :: tl else (k', v') :: setField tl k v

/-- `del d[k]` on a Python dict: remove the key (removes every occurrence;
identical to Python on well-formed documents, whose keys are unique). -/
def eraseField : Doc → String → Doc
  | [], _ => []
  | (k', v') :: tl, k =>
    if k' = k then eraseField tl k else (k', v') :: eraseField tl k

/-! ## ObjectId textual codec

`bson.ObjectId` is external to the repository; the model only relies on its
ids being opaque tokens with an injective textual representation and a
constructor `ObjectId(s)` that succeeds exactly on well-formed id strings.
We realise this with a decimal encoding of the generator counter.  The
encoder runs on fuel so that it is structurally recursive (and hence
evaluates by kernel reduction). -/

/-- The decimal digit character for `d < 10`. -/
def digitChar (d : Nat) : Char := Char.ofNat (48 + d)

/-- Decimal digits of `n`, most significant first, on `fuel` (sufficient
whenever `n < fuel`). -/
def oidCharsAux : Nat → Nat → List Char
  | 0, _ => []
  | fuel + 1, n =>
    if n < 10 then [digitChar n]
    else oidCharsAux fuel (n / 10) ++ [digitChar (n % 10)]

/-- Textual representation of the `n`-th generated ObjectId (`str(_id)`). -/
def oidToString (n : Nat) : String := String.mk (oidCharsAux (n + 1) n)

/-- Parse one decimal digit character. -/
def charDigit? (c : Char) : Option Nat :=
  if 48 ≤ c.toNat ∧ c.toNat ≤ 57 then some (c.toNat - 48) else none

/-- Left-to-right decimal accumulator over a digit string. -/
def parseDigitsAux : List Char → Nat → Option Nat
  | [], acc => some acc
  | c :: cs, acc =>
    match charDigit? c with
    | none => none
    | some d => parseDigitsAux cs (acc * 10 + d)

/-- `ObjectId(s)`: succeeds exactly on well-formed identifier strings,
yielding the id's key.  Models the `bson.ObjectId` constructor, which raises
`InvalidId` on malformed input. -/
def parseObjectId (s : String) : Option Nat :=
  match s.data with
  | [] => none
  | cs => parseDigitsAux cs 0

/-- A well-formed identifier is one `ObjectId(·)` accepts. -/
def isWellFormedId (s : String) : Bool := (parseObjectId s).isSome

/-- `str(v)` as Python renders the values that can appear in a document.
Only the `vOid` case is relied upon (the `_id` of stored documents). -/
def valueStr : Value → String
  | .vStr s => s
  | .vInt n => toString n
  | .vBool b => if b then "True" else "False"
  | .vNull => "None"
  | .vOid n => oidToString n
  | .vArr _ => "<array>"
  | .vDoc _ => "<document>"

/-- `to_str_id` (src/main.py lines 27–35): identifier remapping applied to
every outbound document.  An empty dict is falsy and returned as is; then
`_id = d.get("_id")` conflates a missing `_id` with an `_id` whose value is
`None` (`if _id is not None`), so both are returned unchanged; otherwise
`d["id"] = str(_id)` is set and then `_id` deleted. -/
def to_str_id (doc : Doc) : Doc :=
  match doc with
  | [] => doc
  | _ =>
    match getField doc "_id" with
    | none => doc
    | some .vNull => doc
    | some v => eraseField (setField doc "id" (.vStr (valueStr v))) "_id"

-- ### Basic lemmas about field operations

theorem getField_setField_same (d : Doc) (k : String) (v : Value) :
    getField (setField d k v) k = some v := by
  induction d with
  | nil => simp [setField, getField]
  | cons kv tl ih =>
    by_cases hk : kv.1 = k
    · simp [setField, getField, hk]
    · simpa [setField, getField, hk] using ih

theorem getField_setField_other (d : Doc) (k k' : String) (v : Value)
    (hne : k' ≠ k) : getField (setField d k v) k' = getField d k' := by
  have hne' : ¬ (k = k') := fun h => hne h.symm
  induction d with
  | nil => simp [setField, getField, hne']
  | cons kv tl ih =>
    by_cases hk : kv.1 = k
    · simp [setField, getField, hk, hne']
    · by_cases hk' : kv.1 = k'
      · simp [setField, getField, hk, hk', hne]
      · simpa [setField, getField, hk, hk'] using ih

theorem getField_eraseField_same (d : Doc) (k : String) :
    getField (eraseField d k) k = none := by
  induction d with
  | nil => simp [eraseField, getField]
  | cons kv tl ih =>
    by_cases hk : kv.1 = k
    · simpa [eraseField, hk] using ih
    · simpa [eraseField, getField, hk] using ih

theorem getField_eraseField_other (d : Doc) (k k' : String) (hne : k' ≠ k) :
    getField (eraseField d k) k' = getField d k' := by
  have hne' : ¬ (k = k') := fun h => hne h.symm
  induction d with
  | nil => simp [eraseField]
  | cons kv tl ih =>
    by_cases hk : kv.1 = k
    · simpa [eraseField, getField, hk, hne'] using ih
    · by_cases hk' : kv.1 = k'
      · simp [eraseField, getField, hk, hk', hne]
      · simpa [eraseField, getField, hk, hk'] using ih

-- ### ObjectId codec lemmas

theorem charDigit?_digitChar : ∀ d < 10, charDigit? (digitChar d) = some d := by
  decide

theorem parseDigitsAux_append (xs ys : List Char) (acc : Nat) :
    parseDigitsAux (xs ++ ys) acc =
      match parseDigitsAux xs acc with
      | none => none
      | some a => parseDigitsAux ys a := by
  induction xs generalizing acc with
  | nil => simp [parseDigitsAux]
  | cons c cs ih =>
    simp only [List.cons_append, parseDigitsAux]
    cases charDigit? c with
    | none => rfl
    | some d => exact ih _

theorem oidCharsAux_ne_nil (fuel n : Nat) (h : 0 < fuel) :
    oidCharsAux fuel n ≠ [] := by
  cases fuel with
  | zero => omega
  | succ f =>
    simp only [oidCharsAux]
    split
    · simp
    · simp

theorem parseDigitsAux_oidCharsAux (fuel : Nat) :
    ∀ n acc, n < fuel →
      parseDigitsAux (oidCharsAux fuel n) acc =
        some (acc * 10 ^ (oidCharsAux fuel n).length + n) := by
  induction fuel with
  | zero => intro n acc h; omega
  | succ f ih =>
    intro n acc h
    by_cases h10 : n < 10
    · simp only [oidCharsAux, if_pos h10, parseDigitsAux,
        charDigit?_digitChar n h10]
      simp
    · have hdiv : n / 10 < f := by
        have h1 : n / 10 < n := Nat.div_lt_self (by omega) (by omega)
        omega
      simp only [oidCharsAux, if_neg h10]
      rw [parseDigitsAux_append, ih (n / 10) acc hdiv]
      have hm : n % 10 < 10 := Nat.mod_lt _ (by omega)
      simp only [parseDigitsAux, charDigit?_digitChar (n % 10) hm,
        List.length_append, List.length_cons, List.length_nil]
      have hdm : 10 * (n / 10) + n % 10 = n := Nat.div_add_mod n 10
      have hp : 10 ^ ((oidCharsAux f (n / 10)).length + 1) =
          10 ^ (oidCharsAux f (n / 10)).length * 10 := pow_succ 10 _
      rw [hp]
      apply congrArg
      generalize (10 : Nat) ^ (oidCharsAux f (n / 10)).length = L
      calc (acc * L + n / 10) * 10 + n % 10
          = acc * (L * 10) + (10 * (n / 10) + n % 10) := by ring
        _ = acc * (L * 10) + n := by rw [hdm]

/-- The model's id codec round-trips: the string form of any generated
ObjectId parses back to the id it encodes (in particular every generated id
string is well-formed). -/
theorem parseObjectId_oidToString (n : Nat) :
    parseObjectId (oidToString n) = some n := by
  have hne := oidCharsAux_ne_nil (n + 1) n (by omega)
  have hmain := parseDigitsAux_oidCharsAux (n + 1) n 0 (by omega)
  unfold parseObjectId oidToString
  cases hcs : oidCharsAux (n + 1) n with
  | nil => exact absurd hcs hne
  | cons c cs =>
    simp only [String.data]
    rw [hcs] at hmain
    simpa using hmain

namespace App

/-! ## Data model (src/schemas.py)

Validated record types correspond to the pydantic models; `Raw*` types model
the incoming request bodies before validation (a field is `none` when missing
from the payload).  Numeric fields constrained `ge=0` are `Nat` after
validation. -/

/-- Well-formed absolute URL, modelling pydantic's `HttpUrl` acceptance: an
`http`/`https` scheme followed by a nonempty remainder. -/
def isHttpUrl (s : String) : Bool :=
  ("http://".data.isPrefixOf s.data && 7 < s.data.length) ||
  ("https://".data.isPrefixOf s.data && 8 < s.data.length)

/-- `Timestamp` (schemas.py lines 16–18): `label: str`, `time: int ge=0`.
Note the source puts no minimum length on `label`. -/
structure Timestamp where
  label : String
  time : Nat

/-- `Resource` (schemas.py lines 21–24). -/
structure Resource where
  label : String
  url : String
  rtype : Option String

/-- `Module` (schemas.py lines 27–34). -/
structure Module where
  title : String
  description : Option String
  video_url : String
  thumbnail_url : Option String
  category : Option String
  timestamps : List Timestamp
  resources : List Resource

/-- `Progress` (schemas.py lines 37–41). -/
structure Progress where
  user_id : String
  module_id : String
  last_position : Nat
  completed : Bool

/-- `Note` (schemas.py lines 44–47). -/
structure Note where
  user_id : String
  module_id : String
  content : String

/-- Raw `Timestamp` request fragment before validation. -/
structure RawTimestamp where
  label : Option String
  time : Option Int

/-- Raw `Resource` request fragment before validation. -/
structure RawResource where
  label : Option String
  url : Option String
  rtype : Option String

/-- Raw `Module` request body before validation (`none` = field absent;
`timestamps`/`resources` default to `[]` when absent). -/
structure RawModule where
  title : Option String
  description : Option String
  video_url : Option String
  thumbnail_url : Option String
  category : Option String
  timestamps : Option (List RawTimestamp)
  resources : Option (List RawResource)

/-- Pydantic validation of an embedded `Timestamp`: both fields required,
`time ≥ 0`; the label may be any string, the empty string included. -/
def validateTimestamp (r : RawTimestamp) : Except String Timestamp :=
  match r.label, r.time with
  | some l, some t =>
    if 0 ≤ t then Except.ok ⟨l, t.toNat⟩
    else Except.error "time: ensure this value is greater than or equal to 0"
  | _, _ => Except.error "timestamp: field required"

/-- Pydantic validation of an embedded `Resource`: `label` and `url`
required, `url` a well-formed absolute URL, `type` optional. -/
def validateResource (r : RawResource) : Except String Resource :=
  match r.label, r.url with
  | some l, some u =>
    if isHttpUrl u then Except.ok ⟨l, u, r.rtype⟩
    else Except.error "url: URL scheme not permitted"
  | _, _ => Except.error "resource: field required"

/-- Validate every element of an embedded list, failing on the first bad
element. -/
def validateAll {α β : Type} (f : α → Except String β) :
    List α → Except String (List β)
  | [] => Except.ok []
  | x :: xs =>
    match f x with
    | .error e => Except.error e
    | .ok y =>
      match validateAll f xs with
      | .error e => Except.error e
      | .ok ys => Except.ok (y :: ys)

/-- An optional URL field: absent is fine, present must be well-formed. -/
def validateOptUrl : Option String → Except String (Option String)
  | none => Except.ok none
  | some u =>
    if isHttpUrl u then Except.ok (some u)
    else Except.error "url: URL scheme not permitted"

/-- Pydantic validation of a `Module` request body (schemas.py lines 27–34):
`title` and `video_url` required, `video_url`/`thumbnail_url` well-formed
URLs, embedded lists validated elementwise and defaulting to `[]`. -/
def validateModule (r : RawModule) : Except String Module :=
  match r.title with
  | none => Except.error "title: field required"
  | some title =>
    match r.video_url with
    | none => Except.error "video_url: field required"
    | some vu =>
      if isHttpUrl vu then
        match validateOptUrl r.thumbnail_url with
        | .error e => Except.error e
        | .ok tu =>
          match validateAll validateTimestamp (r.timestamps.getD []) with
          | .error e => Except.error e
          | .ok ts =>
            match validateAll validateResource (r.resources.getD []) with
            | .error e => Except.error e
            | .ok rs => Except.ok ⟨title, r.description, vu, tu, r.category, ts, rs⟩
      else Except.error "video_url: URL scheme not permitted"

/-! ## Serialization to stored documents (`model_dump`) -/

/-- An optional text field as stored: Python `None` becomes BSON null. -/
def optStrVal : Option String → Value
  | none => .vNull
  | some s => .vStr s

/-- `Timestamp.model_dump()`. -/
def timestampToDoc (t : Timestamp) : Doc :=
  [("label", .vStr t.label), ("time", .vInt (t.time : Int))]

/-- `Resource.model_dump()`. -/
def resourceToDoc (r : Resource) : Doc :=
  [("label", .vStr r.label), ("url", .vStr r.url), ("type", optStrVal r.rtype)]

/-- `Module.model_dump()`: the stored field set of a module document. -/
def moduleToDoc (m : Module) : Doc :=
  [("title", .vStr m.title),
   ("description", optStrVal m.description),
   ("video_url", .vStr m.video_url),
   ("thumbnail_url", optStrVal m.thumbnail_url),
   ("category", optStrVal m.category),
   ("timestamps", .vArr (m.timestamps.map (fun t => .vDoc (timestampToDoc t)))),
   ("resources", .vArr (m.resources.map (fun r => .vDoc (resourceToDoc r))))]

/-- `Progress.model_dump()` (the `$set` document of the progress upsert). -/
def progressDump (p : Progress) : Doc :=
  [("user_id", .vStr p.user_id), ("module_id", .vStr p.module_id),
   ("last_position", .vInt (p.last_position : Int)),
   ("completed", .vBool p.completed)]

/-- `Note.model_dump()` (the `$set` document of the note upsert). -/
def noteDump (n : Note) : Doc :=
  [("user_id", .vStr n.user_id), ("module_id", .vStr n.module_id),
   ("content", .vStr n.content)]

/-! ## Store operations

A collection is a list of documents in insertion order; fresh `_id`s come
from a counter threaded through the handlers. -/

/-- Modelled from the spec: `create_document` of the repository's `database`
module (imported by src/main.py but not present under src/) — "insert one
document into the named collection; returns the store-assigned identifier as
a string". -/
def create_document (coll : List Doc) (fields : Doc) (ctr : Nat) :
    List Doc × Nat × String :=
  (coll ++ [("_id", Value.vOid ctr) :: fields], ctr + 1, oidToString ctr)

/-- A document satisfies a string-valued exact-match filter when every
filter key is present with the stated string value. -/
def filterMatches (filt : List (String × String)) (d : Doc) : Bool :=
  filt.all (fun ks =>
    match getField d ks.1 with
    | some (.vStr s) => s == ks.2
    | _ => false)

/-- Modelled from the spec: `get_documents`/`findMany` of the repository's
`database` module (not under src/) — "returns documents matching an
exact-match filter (empty filter = all documents), capped at `limit`". -/
def get_documents (coll : List Doc) (filt : List (String × String))
    (limit : Nat) : List Doc :=
  (coll.filter (filterMatches filt)).take limit

/-- The `(user_id, module_id)` composite-key filter used by the progress and
note endpoints. -/
def keyMatches (uid mid : String) (d : Doc) : Bool :=
  (match getField d "user_id" with
   | some (.vStr s) => s == uid
   | _ => false) &&
  (match getField d "module_id" with
   | some (.vStr s) => s == mid
   | _ => false)

/-- `find_one({"user_id": uid, "module_id": mid})`: the first document of the
collection matching the composite key. -/
def findOneByKey (coll : List Doc) (uid mid : String) : Option Doc :=
  coll.find? (keyMatches uid mid)

/-- The `{"_id": ObjectId(...)}` filter of the single-module lookup. -/
def idMatches (oid : Nat) (d : Doc) : Bool :=
  match getField d "_id" with
  | some (.vOid m) => m == oid
  | _ => false

/-- `find_one({"_id": ObjectId(...)})`. -/
def findOneById (coll : List Doc) (oid : Nat) : Option Doc :=
  coll.find? (idMatches oid)

/-- `$set`: write each field of `dump` into the document, preserving every
other field. -/
def applySet (d : Doc) (dump : Doc) : Doc :=
  dump.foldl (fun acc kv => setField acc kv.1 kv.2) d

/-- `update_one(filter, {"$set": dump}, upsert=True)`: apply `$set` to the
first document matching the `(user_id, module_id)` filter; if none matches,
insert a fresh document carrying a store-assigned `_id` and the `$set`
fields (which subsume the filter's keys here). -/
def update_one_upsert : List Doc → String → String → Doc → Nat → List Doc
  | [], _, _, dump, fresh => [("_id", Value.vOid fresh) :: dump]
  | d :: tl, uid, mid, dump, fresh =>
    if keyMatches uid mid d then applySet d dump :: tl
    else d :: update_one_upsert tl uid mid dump fresh

/-! ## Endpoint handlers (src/main.py)

Each handler takes the relevant collection (and the id-generator counter for
the writing ones) and returns the new state together with the HTTP outcome:
`Except.ok` is a 200 response carrying the JSON body, `Except.error` is an
`HTTPException(status, detail)`. -/

/-- The environment and store conditions `GET /test` can observe:  whether
the `db` handle is usable, the outcome of `list_collection_names()` (a
collection listing or a raised exception's message), and whether the two
environment variables are set. -/
structure TestEnv where
  dbAvailable : Bool
  listCollections : Except String (List String)
  databaseUrlSet : Bool
  databaseNameSet : Bool

/-- `GET /test` (src/main.py lines 43–71).  Every fallible step sits inside a
`try/except` that converts the failure into a descriptive string in the
report, so the handler always produces a 200 response.  The two assignments
after the outer `try` overwrite `database_url` and `database_name` from the
environment variables unconditionally, which is why the report carries the
env-flag strings regardless of the store state. -/
def test_database (env : TestEnv) : Except (Nat × String) Doc :=
  let database :=
    if env.dbAvailable then
      match env.listCollections with
      | .ok _ => "✅ Connected & Working"
      | .error e => "⚠️  Connected but Error: " ++ e.take 50
    else "⚠️  Available but not initialized"
  let collections :=
    if env.dbAvailable then
      match env.listCollections with
      | .ok cs => cs.take 10
      | .error _ => []
    else []
  Except.ok
    [("backend", .vStr "✅ Running"),
     ("database", .vStr database),
     ("database_url", .vStr (if env.databaseUrlSet then "✅ Set" else "❌ Not Set")),
     ("database_name", .vStr (if env.databaseNameSet then "✅ Set" else "❌ Not Set")),
     ("connection_status", .vStr (if env.dbAvailable then "Connected" else "Not Connected")),
     ("collections", .vArr (collections.map Value.vStr))]

/-- First seeded sample module (src/main.py lines 82–96). -/
def sampleModule1 : Module :=
  { title := "Classroom Management: Routines that Work"
    description := some "Establishing smooth routines to reduce disruptions."
    video_url := "https://samplelib.com/lib/preview/mp4/sample-5s.mp4"
    thumbnail_url := some "https://images.unsplash.com/photo-1529070538774-1843cb3265df?w=1200&q=80&auto=format&fit=crop"
    category := some "Classroom"
    timestamps := [⟨"Overview", 5⟩, ⟨"Entry Routine", 20⟩, ⟨"Transitions", 40⟩]
    resources := [⟨"Routine Checklist (PDF)",
      "https://www.w3.org/WAI/ER/tests/xhtml/testfiles/resources/pdf/dummy.pdf",
      some "pdf"⟩] }

/-- Second seeded sample module (src/main.py lines 97–105). -/
def sampleModule2 : Module :=
  { title := "Differentiation: Tiered Tasks"
    description := some "Design assignments that meet students where they are."
    video_url := "https://samplelib.com/lib/preview/mp4/sample-5s.mp4"
    thumbnail_url := some "https://images.unsplash.com/photo-1509062522246-3755977927d7?w=1200&q=80&auto=format&fit=crop"
    category := some "Instruction"
    timestamps := [⟨"Why Tiering", 6⟩, ⟨"Examples", 18⟩]
    resources := [⟨"Tiered Task Templates",
      "https://www.africau.edu/images/default/sample.pdf", some "pdf"⟩] }

/-- Third seeded sample module (src/main.py lines 106–114). -/
def sampleModule3 : Module :=
  { title := "Assessment: Quick Formative Checks"
    description := some "Gather real-time data to adjust instruction."
    video_url := "https://samplelib.com/lib/preview/mp4/sample-5s.mp4"
    thumbnail_url := some "https://images.unsplash.com/photo-1523580846011-d3a5bc25702b?w=1200&q=80&auto=format&fit=crop"
    category := some "Assessment"
    timestamps := [⟨"Entry Tickets", 8⟩, ⟨"Exit Tickets", 16⟩]
    resources := [⟨"Formative Check Bank",
      "https://www.w3.org/WAI/ER/tests/xhtml/testfiles/resources/pdf/dummy.pdf",
      some "pdf"⟩] }

/-- The fixed sample list of the seeding endpoint. -/
def sampleModules : List Module := [sampleModule1, sampleModule2, sampleModule3]

/-- `POST /api/seed` (src/main.py lines 75–120): if
`db["module"].count_documents({})` is positive, report the existing count and
insert nothing; otherwise insert the three fixed samples through
`create_document` and report `{"status": "ok", "inserted": 3}`. -/
def seed_modules (coll : List Doc) (ctr : Nat) :
    (List Doc × Nat) × Except (Nat × String) Doc :=
  let existing := coll.length
  if 0 < existing then
    ((coll, ctr),
     Except.ok [("status", .vStr "ok"),
                ("message", .vStr "Modules already exist"),
                ("count", .vInt (existing : Int))])
  else
    let final := sampleModules.foldl
      (fun st m => let r := create_document st.1 (moduleToDoc m) st.2; (r.1, r.2.1))
      (coll, ctr)
    ((final.1, final.2),
     Except.ok [("status", .vStr "ok"),
                ("inserted", .vInt (sampleModules.length : Int))])

/-- `POST /api/modules` handler body (src/main.py lines 124–130): insert the
validated module document, answer `{"id": inserted_id}`. -/
def create_module (coll : List Doc) (ctr : Nat) (m : Module) :
    (List Doc × Nat) × Except (Nat × String) Doc :=
  let r := create_document coll (moduleToDoc m) ctr
  ((r.1, r.2.1), Except.ok [("id", .vStr r.2.2)])

/-- `POST /api/modules` including the framework-level schema validation: a
request body failing `Module` validation is rejected with a 422 before the
handler body runs, hence before any store write. -/
def create_module_endpoint (coll : List Doc) (ctr : Nat) (raw : RawModule) :
    (List Doc × Nat) × Except (Nat × String) Doc :=
  match validateModule raw with
  | .error e => ((coll, ctr), Except.error (422, e))
  | .ok m => create_module coll ctr m

/-- `GET /api/modules` (src/main.py lines 133–139): list up to `limit`
module documents (the query parameter defaults to 50 when the caller
supplies none), each with the identifier remapped. -/
def list_modules (coll : List Doc) (limit : Option Nat) :
    Except (Nat × String) (List Doc) :=
  Except.ok ((get_documents coll [] (limit.getD 50)).map to_str_id)

/-- `GET /api/modules/{module_id}` (src/main.py lines 142–150).  The handler
wraps its whole body in `try/except Exception`: a malformed identifier makes
`ObjectId` raise (caught, re-surfaced as a 400), and — because FastAPI's
`HTTPException` is itself an `Exception` — the `HTTPException(404, "Module
not found")` raised for an absent document is caught by the same blanket
handler and re-raised as a 400 whose detail is `str(e)`, namely
`"404: Module not found"`. -/
def get_module (coll : List Doc) (module_id : String) :
    Except (Nat × String) Doc :=
  match parseObjectId module_id with
  | none => Except.error (400, "'" ++ module_id ++ "' is not a valid ObjectId")
  | some oid =>
    match findOneById coll oid with
    | none => Except.error (400, "404: Module not found")
    | some d => Except.ok (to_str_id d)

/-- `POST /api/progress` (src/main.py lines 154–165): upsert by
`(user_id, module_id)`, read the stored record back, return it with the id
remapped.  (The read-back can only miss if the upsert did not run; the
model's store is sequential, so the `none` branch is unreachable — it
mirrors `to_str_id(None)` returning the falsy value unchanged.) -/
def save_progress (coll : List Doc) (ctr : Nat) (p : Progress) :
    (List Doc × Nat) × Except (Nat × String) Doc :=
  let coll' := update_one_upsert coll p.user_id p.module_id (progressDump p) ctr
  match findOneByKey coll' p.user_id p.module_id with
  | some d => ((coll', ctr + 1), Except.ok (to_str_id d))
  | none => ((coll', ctr + 1), Except.ok [])

/-- `GET /api/progress` (src/main.py lines 168–176): return the stored
record (id remapped), or the zero-valued default when none exists. -/
def get_progress (coll : List Doc) (user_id module_id : String) :
    Except (Nat × String) Doc :=
  match findOneByKey coll user_id module_id with
  | none =>
    Except.ok [("user_id", .vStr user_id), ("module_id", .vStr module_id),
               ("last_position", .vInt 0), ("completed", .vBool false)]
  | some d => Except.ok (to_str_id d)

/-- `POST /api/notes` (src/main.py lines 180–191): upsert by
`(user_id, module_id)`, read the stored record back, return it with the id
remapped. -/
def save_note (coll : List Doc) (ctr : Nat) (n : Note) :
    (List Doc × Nat) × Except (Nat × String) Doc :=
  let coll' := update_one_upsert coll n.user_id n.module_id (noteDump n) ctr
  match findOneByKey coll' n.user_id n.module_id with
  | some d => ((coll', ctr + 1), Except.ok (to_str_id d))
  | none => ((coll', ctr + 1), Except.ok [])

/-- `GET /api/notes` (src/main.py lines 194–202): return the stored record
(id remapped), or the empty-content default when none exists. -/
def get_note (coll : List Doc) (user_id module_id : String) :
    Except (Nat × String) Doc :=
  match findOneByKey coll user_id module_id with
  | none =>
    Except.ok [("user_id", .vStr user_id), ("module_id", .vStr module_id),
               ("content", .vStr "")]
  | some d => Except.ok (to_str_id d)


/-- A module-creation payload whose embedded Timestamp has the empty-string
label and time `t`, with all other fields valid. -/
def rawEmptyLabel (t : Int) : RawModule :=
  ⟨some "t", none, some "http://example.com/v", none, none,
   some [⟨some "", some t⟩], none⟩

/-- The validated module the empty-label payload parses to. -/
def emptyLabelModule (t : Int) : Module :=
  ⟨"t", none, "http://example.com/v", none, none, [⟨"", t.toNat⟩], []⟩



/-- A small valid module used as a concrete instance. -/
def tinyModule : Module :=
  ⟨"m1", none, "http://example.com/video.mp4", none, none, [], []⟩



/-- Number of documents in a collection matching the `(user_id, module_id)`
composite key. -/
def countKey (coll : List Doc) (uid mid : String) : Nat :=
  coll.countP (keyMatches uid mid)

/-- The document's stored progress fields equal the payload `p`. -/
def progressStored (d : Doc) (p : Progress) : Prop :=
  getField d "user_id" = some (.vStr p.user_id)
  ∧ getField d "module_id" = some (.vStr p.module_id)
  ∧ getField d "last_position" = some (.vInt (p.last_position : Int))
  ∧ getField d "completed" = some (.vBool p.completed)

/-- The progress collection and counter after a sequence of
`POST /api/progress` requests. -/
def postProgressSeq (st : List Doc × Nat) (ps : List Progress) :
    List Doc × Nat :=
  ps.foldl (fun st p => (save_progress st.1 st.2 p).1) st


/-! ## Theorems -/

-- ### `to_str_id` helper lemmas

theorem to_str_id_some (d : Doc) (v : Value) (h : getField d "_id" = some v)
    (hnn : v ≠ Value.vNull) :
    to_str_id d = eraseField (setField d "id" (.vStr (valueStr v))) "_id" := by
  cases d with
  | nil => simp [getField] at h
  | cons kv tl =>
    simp only [to_str_id]
    rw [h]
    cases v with
    | vNull => exact absurd rfl hnn
    | vStr s => rfl
    | vInt n => rfl
    | vBool b => rfl
    | vOid n => rfl
    | vArr es => rfl
    | vDoc fs => rfl

theorem to_str_id_fields (d : Doc) (v : Value) (h : getField d "_id" = some v)
    (hnn : v ≠ Value.vNull) :
    getField (to_str_id d) "_id" = none
  ∧ getField (to_str_id d) "id" = some (.vStr (valueStr v))
  ∧ ∀ k, k ≠ "_id" → k ≠ "id" → getField (to_str_id d) k = getField d k := by
  rw [to_str_id_some d v h hnn]
  refine ⟨getField_eraseField_same _ _, ?_, ?_⟩
  · rw [getField_eraseField_other _ _ _ (by decide), getField_setField_same]
  · intro k hk hk2
    rw [getField_eraseField_other _ _ _ hk, getField_setField_other _ _ _ _ hk2]

/-- C10 (amended): `to_str_id` leaves the document unchanged when it is
empty, lacks `_id`, or holds `_id` with the null value (the code checks
`d.get("_id") is not None`, which conflates the last two cases); when `_id`
holds a non-null value, the result drops `_id`, carries the string field
`id` with its textual representation, and agrees with the input on every
other key. -/
theorem to_str_id_remaps_nonnull_id (d : Doc) :
    (d = [] → to_str_id d = d)
  ∧ (getField d "_id" = none → to_str_id d = d)
  ∧ (getField d "_id" = some Value.vNull → to_str_id d = d)
  ∧ ∀ v, getField d "_id" = some v → v ≠ Value.vNull →
      getField (to_str_id d) "_id" = none
    ∧ getField (to_str_id d) "id" = some (Value.vStr (valueStr v))
    ∧ ∀ k, k ≠ "_id" → k ≠ "id" → getField (to_str_id d) k = getField d k := by
  refine ⟨?_, ?_, ?_, fun v h hnn => to_str_id_fields d v h hnn⟩
  · intro h; subst h; rfl
  · intro h
    cases d with
    | nil => rfl
    | cons kv tl => simp only [to_str_id, h]
  · intro h
    cases d with
    | nil => rfl
    | cons kv tl => simp only [to_str_id, h]

/-- C10 counterexample: a document that does contain an `_id` field — with
the null value — is returned unchanged and gains no `id` field, contrary to
the claim's "contains `_id` ⇒ `_id` removed and string `id` added". -/
theorem to_str_id_null_id_unchanged :
    getField [("_id", Value.vNull)] "_id" = some Value.vNull
  ∧ to_str_id [("_id", Value.vNull)] = [("_id", Value.vNull)]
  ∧ getField (to_str_id [("_id", Value.vNull)]) "id" = none :=
  ⟨rfl, rfl, rfl⟩

/-- Witness for the amended C10 at a concrete two-field document. -/
theorem to_str_id_remaps_nonnull_id_witness :
    getField (to_str_id [("_id", Value.vOid 5), ("x", Value.vStr "y")]) "id"
      = some (Value.vStr (valueStr (Value.vOid 5)))
  ∧ getField (to_str_id [("_id", Value.vOid 5), ("x", Value.vStr "y")]) "x"
      = getField [("_id", Value.vOid 5), ("x", Value.vStr "y")] "x" := by
  have h := to_str_id_remaps_nonnull_id [("_id", Value.vOid 5), ("x", Value.vStr "y")]
  have h4 := h.2.2.2 (Value.vOid 5) rfl (fun hv => Value.noConfusion hv)
  exact ⟨h4.2.1, h4.2.2 "x" (by decide) (by decide)⟩

/-- C1: evaluating `GET /api/modules/{id}` at a well-formed identifier whose
module document is absent.  The handler's `HTTPException(404, "Module not
found")` is raised inside its own `try`, caught by the blanket
`except Exception`, and re-raised as status 400 with detail `str(e)` — so
the endpoint responds 400, not the specified 404. -/
theorem get_module_absent_responds_400 :
    isWellFormedId (oidToString 7) = true
  ∧ get_module [] (oidToString 7) = Except.error (400, "404: Module not found") :=
  ⟨rfl, rfl⟩

/-- C3: fetching Progress and Note for a never-written `(user_id, module_id)`
pair answers 200 with exactly the zero-valued default records, which carry
no `id` field. -/
theorem get_progress_get_note_defaults (pcoll ncoll : List Doc)
    (uid mid : String)
    (hp : ∀ d ∈ pcoll, keyMatches uid mid d = false)
    (hn : ∀ d ∈ ncoll, keyMatches uid mid d = false) :
    get_progress pcoll uid mid
      = Except.ok [("user_id", Value.vStr uid), ("module_id", Value.vStr mid),
                   ("last_position", Value.vInt 0), ("completed", Value.vBool false)]
  ∧ getField [("user_id", Value.vStr uid), ("module_id", Value.vStr mid),
              ("last_position", Value.vInt 0), ("completed", Value.vBool false)]
      "id" = none
  ∧ get_note ncoll uid mid
      = Except.ok [("user_id", Value.vStr uid), ("module_id", Value.vStr mid),
                   ("content", Value.vStr "")]
  ∧ getField [("user_id", Value.vStr uid), ("module_id", Value.vStr mid),
              ("content", Value.vStr "")] "id" = none := by
  have hfp : pcoll.find? (keyMatches uid mid) = none :=
    List.find?_eq_none.mpr (fun d hd => by rw [hp d hd]; simp)
  have hfn : ncoll.find? (keyMatches uid mid) = none :=
    List.find?_eq_none.mpr (fun d hd => by rw [hn d hd]; simp)
  refine ⟨?_, rfl, ?_, rfl⟩
  · simp only [get_progress, findOneByKey, hfp]
  · simp only [get_note, findOneByKey, hfn]

/-- Witness for C3 on empty collections and a concrete key. -/
theorem get_progress_get_note_defaults_witness :
    get_progress [] "u" "m"
      = Except.ok [("user_id", Value.vStr "u"), ("module_id", Value.vStr "m"),
                   ("last_position", Value.vInt 0), ("completed", Value.vBool false)]
  ∧ get_note [] "u" "m"
      = Except.ok [("user_id", Value.vStr "u"), ("module_id", Value.vStr "m"),
                   ("content", Value.vStr "")] := by
  have h := get_progress_get_note_defaults [] [] "u" "m"
    (fun d hd => absurd hd (List.not_mem_nil d))
    (fun d hd => absurd hd (List.not_mem_nil d))
  exact ⟨h.1, h.2.2.1⟩

/-- C7: listing modules returns `min limit total` records — at most `limit`,
and exactly `limit` when at least that many are stored — and an absent
`limit` query parameter behaves as the default cap 50. -/
theorem list_modules_caps_at_limit (coll : List Doc) (lim : Nat) :
    (∃ docs, list_modules coll (some lim) = Except.ok docs
       ∧ docs.length = min lim coll.length)
  ∧ list_modules coll none = list_modules coll (some 50) := by
  constructor
  · refine ⟨_, rfl, ?_⟩
    have hall : coll.filter (filterMatches []) = coll :=
      List.filter_eq_self.mpr (fun a _ => rfl)
    simp [list_modules, get_documents, hall]
  · rfl

/-- C8: the diagnostic endpoint is total over every modelled environment and
store condition — store handle absent, collection listing failing with any
message, environment variables set or not — always answering 200 with the
fault encoded as a descriptive string in the report fields. -/
theorem test_database_never_raises (env : TestEnv) :
    ∃ d, test_database env = Except.ok d
  ∧ getField d "backend" = some (Value.vStr "\u2705 Running")
  ∧ getField d "database" = some (Value.vStr
      (if env.dbAvailable then
        match env.listCollections with
        | .ok _ => "\u2705 Connected & Working"
        | .error e => "\u26a0\ufe0f  Connected but Error: " ++ e.take 50
       else "\u26a0\ufe0f  Available but not initialized"))
  ∧ getField d "database_url"
      = some (Value.vStr (if env.databaseUrlSet then "\u2705 Set" else "\u274c Not Set"))
  ∧ getField d "database_name"
      = some (Value.vStr (if env.databaseNameSet then "\u2705 Set" else "\u274c Not Set"))
  ∧ getField d "connection_status"
      = some (Value.vStr (if env.dbAvailable then "Connected" else "Not Connected"))
  ∧ (getField d "collections").isSome = true := by
  obtain ⟨av, lc, us, ns⟩ := env
  cases av <;> cases lc <;> cases us <;> cases ns <;>
    exact ⟨_, rfl, rfl, rfl, rfl, rfl, rfl, rfl⟩

/-- C5: seeding an empty module collection inserts exactly the 3 fixed
samples and reports `{status, inserted}`; seeding any non-empty collection
changes nothing and reports the existing count; hence two sequential calls
starting from empty leave exactly 3 modules. -/
theorem seed_modules_idempotent :
    (seed_modules [] 0).1.1.length = 3
  ∧ (seed_modules [] 0).2
      = Except.ok [("status", Value.vStr "ok"), ("inserted", Value.vInt 3)]
  ∧ (∀ coll ctr, coll ≠ [] →
      seed_modules coll ctr
        = ((coll, ctr),
           Except.ok [("status", Value.vStr "ok"),
                      ("message", Value.vStr "Modules already exist"),
                      ("count", Value.vInt (coll.length : Int))]))
  ∧ (seed_modules (seed_modules [] 0).1.1 (seed_modules [] 0).1.2).1.1.length = 3 := by
  refine ⟨rfl, rfl, ?_, rfl⟩
  intro coll ctr h
  cases coll with
  | nil => exact absurd rfl h
  | cons d tl => simp [seed_modules]

/-- Witness for C5's non-empty branch at a one-document collection. -/
theorem seed_modules_idempotent_witness :
    seed_modules [[("title", Value.vStr "t")]] 4
      = (([[("title", Value.vStr "t")]], 4),
         Except.ok [("status", Value.vStr "ok"),
                    ("message", Value.vStr "Modules already exist"),
                    ("count", Value.vInt 1)]) := by
  exact seed_modules_idempotent.2.2.1 [[("title", Value.vStr "t")]] 4 (by simp)

-- ### Validation inversion lemmas

theorem validateAll_ok {α β : Type} (f : α → Except String β) :
    ∀ (l : List α) (ys : List β), validateAll f l = .ok ys →
      ∀ x ∈ l, ∃ y, f x = .ok y := by
  intro l
  induction l with
  | nil => intro ys h x hx; exact absurd hx (List.not_mem_nil x)
  | cons a as ih =>
    intro ys h x hx
    cases hfa : f a with
    | error e => simp only [validateAll, hfa] at h; exact Except.noConfusion h
    | ok y =>
      simp only [validateAll, hfa] at h
      cases hrest : validateAll f as with
      | error e => simp only [hrest] at h; exact Except.noConfusion h
      | ok ys' =>
        rcases List.mem_cons.mp hx with hxa | hxas
        · subst hxa; exact ⟨y, hfa⟩
        · exact ih ys' hrest x hxas

theorem validateResource_ok (r : RawResource) (y : Resource)
    (h : validateResource r = .ok y) :
    ∃ u, r.url = some u ∧ isHttpUrl u = true := by
  cases hl : r.label with
  | none => simp only [validateResource, hl] at h; exact Except.noConfusion h
  | some l =>
    cases hu : r.url with
    | none => simp only [validateResource, hl, hu] at h; exact Except.noConfusion h
    | some u =>
      simp only [validateResource, hl, hu] at h
      by_cases hurl : isHttpUrl u = true
      · exact ⟨u, rfl, hurl⟩
      · rw [if_neg hurl] at h; exact Except.noConfusion h

theorem validateOptUrl_ok (o : Option String) (o' : Option String)
    (h : validateOptUrl o = .ok o') :
    ∀ u, o = some u → isHttpUrl u = true := by
  intro u hu
  subst hu
  simp only [validateOptUrl] at h
  by_cases h2 : isHttpUrl u = true
  · exact h2
  · rw [if_neg h2] at h; exact Except.noConfusion h

theorem validateModule_ok_urls (r : RawModule) (m : Module)
    (h : validateModule r = .ok m) :
    (∃ vu, r.video_url = some vu ∧ isHttpUrl vu = true)
  ∧ (∀ u, r.thumbnail_url = some u → isHttpUrl u = true)
  ∧ (∀ rr ∈ r.resources.getD [], ∃ u, rr.url = some u ∧ isHttpUrl u = true) := by
  cases ht : r.title with
  | none => simp only [validateModule, ht] at h; exact Except.noConfusion h
  | some title =>
    cases hv : r.video_url with
    | none => simp only [validateModule, ht, hv] at h; exact Except.noConfusion h
    | some vu =>
      simp only [validateModule, ht, hv] at h
      by_cases hurl : isHttpUrl vu = true
      · rw [if_pos hurl] at h
        cases hvo : validateOptUrl r.thumbnail_url with
        | error e => simp only [hvo] at h; exact Except.noConfusion h
        | ok tu =>
          simp only [hvo] at h
          cases hts : validateAll validateTimestamp (r.timestamps.getD []) with
          | error e => simp only [hts] at h; exact Except.noConfusion h
          | ok ts =>
            simp only [hts] at h
            cases hrs : validateAll validateResource (r.resources.getD []) with
            | error e => simp only [hrs] at h; exact Except.noConfusion h
            | ok rs =>
              refine ⟨⟨vu, rfl, hurl⟩, validateOptUrl_ok _ _ hvo, ?_⟩
              intro rr hrr
              obtain ⟨y, hy⟩ := validateAll_ok validateResource _ rs hrs rr hrr
              exact validateResource_ok rr y hy
      · rw [if_neg hurl] at h; exact Except.noConfusion h

/-- C6: a module-creation request whose payload lacks `video_url`, or whose
`video_url`, `thumbnail_url` or any resource `url` is missing/not a
well-formed absolute URL, is rejected with the framework's 422 validation
error, and the store is unchanged (no write occurs). -/
theorem create_module_rejects_missing_or_bad_urls (coll : List Doc)
    (ctr : Nat) (raw : RawModule)
    (h : raw.video_url = none
       ∨ (∃ u, raw.video_url = some u ∧ isHttpUrl u = false)
       ∨ (∃ u, raw.thumbnail_url = some u ∧ isHttpUrl u = false)
       ∨ (∃ rr, rr ∈ raw.resources.getD []
            ∧ (rr.url = none ∨ ∃ u, rr.url = some u ∧ isHttpUrl u = false))) :
    ∃ msg, create_module_endpoint coll ctr raw
      = ((coll, ctr), Except.error (422, msg)) := by
  cases hv : validateModule raw with
  | error e => exact ⟨e, by simp only [create_module_endpoint, hv]⟩
  | ok m =>
    exfalso
    obtain ⟨⟨vu, hvu, hvurl⟩, hthumb, hres⟩ := validateModule_ok_urls raw m hv
    rcases h with h1 | ⟨u, hu, hbad⟩ | ⟨u, hu, hbad⟩ | ⟨rr, hrr, hbadr⟩
    · rw [h1] at hvu; exact Option.noConfusion hvu
    · have heq : u = vu := Option.some.inj (hu.symm.trans hvu)
      rw [heq] at hbad; rw [hbad] at hvurl; exact Bool.noConfusion hvurl
    · have h2 := hthumb u hu
      rw [hbad] at h2; exact Bool.noConfusion h2
    · obtain ⟨u', hu', hurl'⟩ := hres rr hrr
      rcases hbadr with hnone | ⟨u, hu, hbad⟩
      · rw [hnone] at hu'; exact Option.noConfusion hu'
      · have heq : u = u' := Option.some.inj (hu.symm.trans hu')
        rw [heq] at hbad; rw [hbad] at hurl'; exact Bool.noConfusion hurl'

/-- Witness for C6 on a payload missing `video_url`. -/
theorem create_module_rejects_missing_video_url_witness :
    ∃ msg, create_module_endpoint [] 0
        ⟨some "t", none, none, none, none, none, none⟩
      = (([], 0), Except.error (422, msg)) :=
  create_module_rejects_missing_or_bad_urls [] 0
    ⟨some "t", none, none, none, none, none, none⟩ (Or.inl rfl)

/-- C9 counterexample: the module-creation payload embedding a Timestamp
whose `label` is the empty string is not rejected — validation succeeds, the
document is written (the collection grows from 0 to 1), and the endpoint
answers 200 with the new id. -/
theorem create_module_accepts_empty_label_cx :
    (create_module_endpoint [] 0 (rawEmptyLabel 3)).2
      = Except.ok [("id", Value.vStr (oidToString 0))]
  ∧ (create_module_endpoint [] 0 (rawEmptyLabel 3)).1.1.length = 1 :=
  ⟨rfl, rfl⟩

/-- C9 (amended): the data model does not constrain a Timestamp label to be
non-empty — `Timestamp.label` is a plain `str` field — so a creation payload
whose timestamp label is the empty string (and which is otherwise valid) is
accepted: the document is written and the endpoint answers 200 with its id. -/
theorem create_module_accepts_empty_label (coll : List Doc) (ctr : Nat)
    (t : Int) (ht : 0 ≤ t) :
    create_module_endpoint coll ctr (rawEmptyLabel t)
      = ((coll ++ [("_id", Value.vOid ctr) :: moduleToDoc (emptyLabelModule t)],
          ctr + 1),
         Except.ok [("id", Value.vStr (oidToString ctr))]) := by
  have hurl : isHttpUrl "http://example.com/v" = true := by decide
  have hval : validateModule (rawEmptyLabel t)
      = Except.ok (emptyLabelModule t) := by
    simp only [validateModule, rawEmptyLabel, emptyLabelModule, validateOptUrl,
      validateAll, validateTimestamp, hurl, if_pos ht, if_true]
  simp only [create_module_endpoint, hval, create_module, create_document]

/-- Witness for the amended C9 at `t = 3`, an empty store and counter 7. -/
theorem create_module_accepts_empty_label_witness :
    create_module_endpoint [] 7 (rawEmptyLabel 3)
      = (([("_id", Value.vOid 7) :: moduleToDoc (emptyLabelModule 3)], 8),
         Except.ok [("id", Value.vStr (oidToString 7))]) :=
  create_module_accepts_empty_label [] 7 3 (by decide)

-- ### Round-trip helper lemmas

theorem setField_not_mem (d : Doc) (k : String) (v : Value)
    (h : ∀ kv ∈ d, kv.1 ≠ k) : setField d k v = d ++ [(k, v)] := by
  induction d with
  | nil => rfl
  | cons kv tl ih =>
    have hk : kv.1 ≠ k := h kv (List.mem_cons_self kv tl)
    simp only [setField, if_neg hk, List.cons_append, List.cons.injEq, true_and]
    exact ih (fun x hx => h x (List.mem_cons_of_mem kv hx))

theorem eraseField_not_mem (d : Doc) (k : String)
    (h : ∀ kv ∈ d, kv.1 ≠ k) : eraseField d k = d := by
  induction d with
  | nil => rfl
  | cons kv tl ih =>
    have hk : kv.1 ≠ k := h kv (List.mem_cons_self kv tl)
    simp only [eraseField, if_neg hk, List.cons.injEq, true_and]
    exact ih (fun x hx => h x (List.mem_cons_of_mem kv hx))

theorem moduleToDoc_keys (m : Module) :
    ∀ kv ∈ moduleToDoc m,
      kv.1 = "title" ∨ kv.1 = "description" ∨ kv.1 = "video_url"
    ∨ kv.1 = "thumbnail_url" ∨ kv.1 = "category" ∨ kv.1 = "timestamps"
    ∨ kv.1 = "resources" := by
  intro kv hkv
  simp only [moduleToDoc, List.mem_cons, List.not_mem_nil, or_false] at hkv
  rcases hkv with h | h | h | h | h | h | h <;> rw [h]
  · exact Or.inl rfl
  · exact Or.inr (Or.inl rfl)
  · exact Or.inr (Or.inr (Or.inl rfl))
  · exact Or.inr (Or.inr (Or.inr (Or.inl rfl)))
  · exact Or.inr (Or.inr (Or.inr (Or.inr (Or.inl rfl))))
  · exact Or.inr (Or.inr (Or.inr (Or.inr (Or.inr (Or.inl rfl)))))
  · exact Or.inr (Or.inr (Or.inr (Or.inr (Or.inr (Or.inr rfl)))))

theorem eraseField_cons_same (k : String) (v : Value) (tl : Doc) :
    eraseField ((k, v) :: tl) k = eraseField tl k := by
  simp [eraseField]

theorem to_str_id_new_module_doc (m : Module) (n : Nat) :
    to_str_id (("_id", Value.vOid n) :: moduleToDoc m)
      = moduleToDoc m ++ [("id", Value.vStr (oidToString n))] := by
  have hid : getField (("_id", Value.vOid n) :: moduleToDoc m) "_id"
      = some (Value.vOid n) := by simp [getField]
  rw [to_str_id_some _ _ hid (fun hv => Value.noConfusion hv)]
  have hnid : ∀ kv ∈ moduleToDoc m, kv.1 ≠ "id" := by
    intro kv hkv
    rcases moduleToDoc_keys m kv hkv with h | h | h | h | h | h | h <;>
      rw [h] <;> decide
  have hnuid : ∀ kv ∈ moduleToDoc m, kv.1 ≠ "_id" := by
    intro kv hkv
    rcases moduleToDoc_keys m kv hkv with h | h | h | h | h | h | h <;>
      rw [h] <;> decide
  have hall : ∀ kv ∈ ("_id", Value.vOid n) :: moduleToDoc m, kv.1 ≠ "id" := by
    intro kv hkv
    rcases List.mem_cons.mp hkv with h | h
    · rw [h]; exact fun hc => (by decide : ¬ ("_id" = "id")) hc
    · exact hnid kv h
  rw [setField_not_mem _ _ _ hall, List.cons_append, eraseField_cons_same,
    eraseField_not_mem]
  · rfl
  · intro kv hkv
    rcases List.mem_append.mp hkv with hmem | hmem
    · exact hnuid kv hmem
    · rw [List.mem_singleton.mp hmem]
      exact fun hc => (by decide : ¬ ("id" = "_id")) hc

/-- C4: creating a module and fetching by the returned identifier yields a
record whose fields are exactly the posted payload's stored field values
plus a string `id` equal to the returned identifier. -/
theorem create_then_fetch_roundtrip (coll : List Doc) (ctr : Nat) (m : Module)
    (hfresh : ∀ d ∈ coll, idMatches ctr d = false) :
    (create_module coll ctr m).2
      = Except.ok [("id", Value.vStr (oidToString ctr))]
  ∧ get_module (create_module coll ctr m).1.1 (oidToString ctr)
      = Except.ok (moduleToDoc m ++ [("id", Value.vStr (oidToString ctr))]) := by
  refine ⟨rfl, ?_⟩
  have hstate : (create_module coll ctr m).1.1
      = coll ++ [("_id", Value.vOid ctr) :: moduleToDoc m] := rfl
  rw [hstate]
  simp only [get_module, parseObjectId_oidToString]
  have hnone : coll.find? (idMatches ctr) = none :=
    List.find?_eq_none.mpr (fun d hd => by rw [hfresh d hd]; simp)
  have hmatch : idMatches ctr (("_id", Value.vOid ctr) :: moduleToDoc m) = true := by
    simp [idMatches, getField]
  simp only [findOneById, List.find?_append, hnone, Option.none_or]
  rw [List.find?_cons_of_pos _ hmatch]
  show Except.ok (to_str_id (("_id", Value.vOid ctr) :: moduleToDoc m)) = _
  rw [to_str_id_new_module_doc]

/-- Witness for C4 on an empty store with a concrete small module. -/
theorem create_then_fetch_roundtrip_witness :
    get_module (create_module [] 0 tinyModule).1.1 (oidToString 0)
      = Except.ok (moduleToDoc tinyModule
          ++ [("id", Value.vStr (oidToString 0))]) :=
  (create_then_fetch_roundtrip [] 0 tinyModule
    (fun d hd => absurd hd (List.not_mem_nil d))).2

-- ### Upsert lemmas

theorem save_progress_state (coll : List Doc) (ctr : Nat) (p : Progress) :
    (save_progress coll ctr p).1
      = (update_one_upsert coll p.user_id p.module_id (progressDump p) ctr,
         ctr + 1) := by
  simp only [save_progress]
  split <;> rfl

theorem applySet_progressDump_fields (d : Doc) (p : Progress) :
    progressStored (applySet d (progressDump p)) p := by
  show progressStored
    (setField (setField (setField (setField d "user_id" (.vStr p.user_id))
      "module_id" (.vStr p.module_id))
      "last_position" (.vInt (p.last_position : Int)))
      "completed" (.vBool p.completed)) p
  refine ⟨?_, ?_, ?_, ?_⟩
  · rw [getField_setField_other _ _ _ _ (by decide),
      getField_setField_other _ _ _ _ (by decide),
      getField_setField_other _ _ _ _ (by decide), getField_setField_same]
  · rw [getField_setField_other _ _ _ _ (by decide),
      getField_setField_other _ _ _ _ (by decide), getField_setField_same]
  · rw [getField_setField_other _ _ _ _ (by decide), getField_setField_same]
  · rw [getField_setField_same]

theorem keyMatches_applySet (d : Doc) (p : Progress) :
    keyMatches p.user_id p.module_id (applySet d (progressDump p)) = true := by
  have h := applySet_progressDump_fields d p
  simp only [keyMatches, h.1, h.2.1]
  simp

theorem progressStored_new (p : Progress) (fresh : Nat) :
    progressStored (("_id", Value.vOid fresh) :: progressDump p) p :=
  ⟨rfl, rfl, rfl, rfl⟩

theorem keyMatches_new (p : Progress) (fresh : Nat) :
    keyMatches p.user_id p.module_id
      (("_id", Value.vOid fresh) :: progressDump p) = true := by
  simp [keyMatches, getField, progressDump]

theorem countKey_cons_true (d : Doc) (tl : List Doc) (uid mid : String)
    (h : keyMatches uid mid d = true) :
    countKey (d :: tl) uid mid = countKey tl uid mid + 1 := by
  unfold countKey
  rw [List.countP_cons, h]
  simp

theorem countKey_cons_false (d : Doc) (tl : List Doc) (uid mid : String)
    (h : keyMatches uid mid d = false) :
    countKey (d :: tl) uid mid = countKey tl uid mid := by
  unfold countKey
  rw [List.countP_cons, h]
  simp

theorem countKey_cons_le (d0 : Doc) (tl : List Doc) (uid mid : String)
    (h : countKey (d0 :: tl) uid mid ≤ 1) : countKey tl uid mid ≤ 1 := by
  cases h0 : keyMatches uid mid d0 with
  | true => rw [countKey_cons_true _ _ _ _ h0] at h; omega
  | false => rw [countKey_cons_false _ _ _ _ h0] at h; exact h

theorem update_one_upsert_count (coll : List Doc) (p : Progress) (fresh : Nat)
    (hinv : countKey coll p.user_id p.module_id ≤ 1) :
    countKey (update_one_upsert coll p.user_id p.module_id
      (progressDump p) fresh) p.user_id p.module_id = 1 := by
  induction coll with
  | nil =>
    show countKey [("_id", Value.vOid fresh) :: progressDump p] _ _ = 1
    rw [countKey_cons_true _ _ _ _ (keyMatches_new p fresh)]
    rfl
  | cons d0 tl ih =>
    cases h0 : keyMatches p.user_id p.module_id d0 with
    | true =>
      have htl : countKey tl p.user_id p.module_id = 0 := by
        rw [countKey_cons_true _ _ _ _ h0] at hinv
        omega
      simp only [update_one_upsert, h0, if_true]
      rw [countKey_cons_true _ _ _ _ (keyMatches_applySet d0 p), htl]
    | false =>
      have hrec := ih (countKey_cons_le d0 tl _ _ hinv)
      simp only [update_one_upsert, h0, Bool.false_eq_true, if_false]
      rw [countKey_cons_false _ _ _ _ h0, hrec]

theorem update_one_upsert_stored (coll : List Doc) (p : Progress)
    (fresh : Nat) (hinv : countKey coll p.user_id p.module_id ≤ 1) :
    ∀ d ∈ update_one_upsert coll p.user_id p.module_id (progressDump p) fresh,
      keyMatches p.user_id p.module_id d = true → progressStored d p := by
  induction coll with
  | nil =>
    intro d hd hmatch
    rw [List.mem_singleton.mp hd]
    exact progressStored_new p fresh
  | cons d0 tl ih =>
    intro d hd hmatch
    cases h0 : keyMatches p.user_id p.module_id d0 with
    | true =>
      simp only [update_one_upsert, h0, if_true] at hd
      rcases List.mem_cons.mp hd with h | h
      · rw [h]; exact applySet_progressDump_fields d0 p
      · exfalso
        have htl : countKey tl p.user_id p.module_id = 0 := by
          rw [countKey_cons_true _ _ _ _ h0] at hinv
          omega
        exact (List.countP_eq_zero.mp htl d h) hmatch
    | false =>
      simp only [update_one_upsert, h0, Bool.false_eq_true, if_false] at hd
      rcases List.mem_cons.mp hd with h | h
      · rw [h] at hmatch; rw [h0] at hmatch; exact Bool.noConfusion hmatch
      · exact ih (countKey_cons_le d0 tl _ _ hinv) d h hmatch

/-- C2: starting from any store holding at most one progress document for
the key, a nonempty sequence of `POST /api/progress` requests for one
`(user_id, module_id)` pair leaves exactly one document for the pair, and
its stored fields equal the last-posted payload (last-write-wins, no
duplicates). -/
theorem save_progress_last_write_wins (coll : List Doc) (ctr : Nat)
    (uid mid : String) (ps : List Progress) (plast : Progress)
    (hkey : ∀ p ∈ ps, p.user_id = uid ∧ p.module_id = mid)
    (hlast : ps.getLast? = some plast)
    (hinv : countKey coll uid mid ≤ 1) :
    countKey (postProgressSeq (coll, ctr) ps).1 uid mid = 1
  ∧ ∀ d ∈ (postProgressSeq (coll, ctr) ps).1,
      keyMatches uid mid d = true → progressStored d plast := by
  induction ps generalizing coll ctr with
  | nil => exact absurd hlast (by simp)
  | cons p ps' ih =>
    obtain ⟨h1, h2⟩ := hkey p (List.mem_cons_self p ps')
    subst h1; subst h2
    have hstep : postProgressSeq (coll, ctr) (p :: ps')
        = postProgressSeq
            (update_one_upsert coll p.user_id p.module_id (progressDump p) ctr,
             ctr + 1) ps' := by
      simp only [postProgressSeq, List.foldl_cons, save_progress_state]
    cases ps' with
    | nil =>
      have hp : p = plast := by simpa using hlast
      subst hp
      rw [hstep]
      simp only [postProgressSeq, List.foldl_nil]
      exact ⟨update_one_upsert_count coll p ctr hinv,
        update_one_upsert_stored coll p ctr hinv⟩
    | cons p2 ps2 =>
      rw [hstep]
      have hlast2 : (p2 :: ps2).getLast? = some plast := by
        rw [← List.getLast?_cons_cons (a := p)]; exact hlast
      have hkey2 : ∀ q ∈ p2 :: ps2, q.user_id = p.user_id ∧ q.module_id = p.module_id :=
        fun q hq => hkey q (List.mem_cons_of_mem p hq)
      have hinv2 : countKey
          (update_one_upsert coll p.user_id p.module_id (progressDump p) ctr)
          p.user_id p.module_id ≤ 1 := by
        rw [update_one_upsert_count coll p ctr hinv]
      exact ih _ (ctr + 1) hkey2 hlast2 hinv2

/-- Witness for C2: two posts for the pair `("u","m")` on an empty store
leave one document holding the second payload. -/
theorem save_progress_last_write_wins_witness :
    countKey (postProgressSeq ([], 0)
      [⟨"u", "m", 10, false⟩, ⟨"u", "m", 20, true⟩]).1 "u" "m" = 1
  ∧ ∀ d ∈ (postProgressSeq ([], 0)
      [⟨"u", "m", 10, false⟩, ⟨"u", "m", 20, true⟩]).1,
      keyMatches "u" "m" d = true → progressStored d ⟨"u", "m", 20, true⟩ := by
  exact save_progress_last_write_wins [] 0 "u" "m"
    [⟨"u", "m", 10, false⟩, ⟨"u", "m", 20, true⟩] ⟨"u", "m", 20, true⟩
    (by decide) rfl (by decide)

end App
